import Mathlib

/-!
# WhiteFox LED controller: shallow embedding and verified properties

Embedding of `led_controller.c` (driver for the IS31FL3731C LED matrix chip)
and of `action_function` from `keymap_flabber.c`.

Conventions.
* `uint8_t` values are natural numbers; every value stored here is a source
  constant or a caller-supplied byte, no arithmetic can overflow.
* The global buffers `tx`, `rx`, `full_page` are maps from index to byte.
* Stateful C code is a function `World → World` (or `World → World × msg_t`
  when the C function returns a status).
* Every call into ChibiOS (HAL, PAL, threads, mailboxes) appends one `Effect`
  to the world's trace, in program order.
-/

namespace WhiteFox

/-! ## Constants of `led_controller.h` (header not part of the sources) -/

/-- Constants that `led_controller.c` takes from `led_controller.h`.  The
header is absent, so their values are parameters of the embedding. -/
structure IssiConsts where
  ISSI_ADDR_DEFAULT : Nat
  ISSI_COMMANDREGISTER : Nat
  ISSI_FUNCTIONREG : Nat
  ISSI_REG_SHUTDOWN : Nat
  ISSI_REG_SHUTDOWN_ON : Nat
  ISSI_TIMEOUT : Nat
  deriving DecidableEq, Repr

/-- Values as in the IS31FL3731C datasheet (command register `0xFD`, function
page `0x0B`, shutdown register `0x0A`); used for concrete evaluations. -/
def datasheetConsts : IssiConsts :=
  { ISSI_ADDR_DEFAULT := 0x74
    ISSI_COMMANDREGISTER := 0xFD
    ISSI_FUNCTIONREG := 0x0B
    ISSI_REG_SHUTDOWN := 0x0A
    ISSI_REG_SHUTDOWN_ON := 0x01
    ISSI_TIMEOUT := 5000 }

/-! ## ChibiOS vocabulary -/

/-- ChibiOS `msg_t`. -/
abbrev msg_t := Int

/-- ChibiOS `MSG_OK`. -/
def MSG_OK : msg_t := 0

/-- ChibiOS `MSG_TIMEOUT`. -/
def MSG_TIMEOUT : msg_t := -1

/-- ChibiOS `TIME_IMMEDIATE`. -/
def TIME_IMMEDIATE : Nat := 0

/-- GPIO ports named in the sources. -/
inductive Port
  | GPIOB
  deriving DecidableEq, Repr

/-- Pad modes named in the sources. -/
inductive PadMode
  | PAL_MODE_OUTPUT_PUSHPULL
  | PAL_MODE_ALTERNATIVE_2
  deriving DecidableEq, Repr

/-- Modelled from the spec: the Command Message enumeration of
`led_controller.h` (absent), "an enumerated, payload-free token"; only the two
enumerators named in `keymap_flabber.c` are listed. -/
inductive led_msg
  | LED_MSG_ALL_TOGGLE
  | LED_MSG_GAME_TOGGLE
  deriving DecidableEq, Repr

/-- Mailboxes named in the sources. -/
inductive Mailbox
  | led_mailbox
  deriving DecidableEq, Repr

/-- One call into the operating system or the hardware abstraction layer. -/
inductive Effect
  /-- `i2cMasterTransmitTimeout(&I2CD1, addr, txbuf, txbytes, rx, rxbytes,
  US2ST(timeout))`, with the `txbytes` bytes of `txbuf` spelled out. -/
  | i2cMasterTransmitTimeout (addr : Nat) (txdata : List Nat) (rxbytes : Nat) (timeout : Nat)
  | palSetPadMode (port : Port) (pad : Nat) (mode : PadMode)
  | palSetPad (port : Port) (pad : Nat)
  | chThdSleepMilliseconds (ms : Nat)
  /-- `i2cStart(&I2CD1, &i2ccfg)` with the clock speed of `i2ccfg`. -/
  | i2cStart (clock : Nat)
  /-- `I2CD1.i2c->C2 |= I2Cx_C2_HDRS`. -/
  | i2cSetHighDrive
  /-- `I2CD1.i2c->FLT = v`. -/
  | i2cSetFLT (v : Nat)
  | chMBPost (mb : Mailbox) (msg : led_msg) (timeout : Nat)
  deriving DecidableEq, Repr

/-- Bus transactions among the effects. -/
def Effect.isBusTransaction : Effect → Bool
  | .i2cMasterTransmitTimeout _ _ _ _ => true
  | _ => false

/-- Effects that belong to the device driver or the bus (everything except
thread sleeps and mailbox posts). -/
def Effect.isDriverOp : Effect → Bool
  | .chThdSleepMilliseconds _ => false
  | .chMBPost _ _ _ => false
  | _ => true

/-! ## Simulated chip -/

/-- A byte buffer: index to byte. -/
abbrev Buf := Nat → Nat

/-- The first `n` bytes of a buffer. -/
def Buf.bytes (b : Buf) (n : Nat) : List Nat := (List.range n).map b

/-- Store `v` at index `i`. -/
def Buf.set (b : Buf) (i v : Nat) : Buf := fun j => if j = i then v else b j

/-- Modelled from the spec: the simulated bus of the testable properties, "a
simulated bus that records the last selected page".  `selected` is the last
successfully selected page, `banks page offset` the register banks, and
`applied` the log of data transactions with the page each was applied to. -/
structure Chip where
  selected : Nat
  banks : Nat → Nat → Nat
  applied : List (Nat × List Nat)

/-- Modelled from the spec: the page values the chip supports, "0–7 or the
function-page value". -/
def validPage (c : IssiConsts) (p : Nat) : Prop := p < 8 ∨ p = c.ISSI_FUNCTIONREG

instance (c : IssiConsts) (p : Nat) : Decidable (validPage c p) := by
  unfold validPage; exact inferInstance

/-- Modelled from the spec: a "multi-byte burst starting at a register
offset": consecutive bytes go to consecutive offsets of one page. -/
def writeBurst (banks : Nat → Nat → Nat) (page : Nat) : Nat → List Nat → (Nat → Nat → Nat)
  | _, [] => banks
  | off, d :: ds =>
    writeBurst (fun pg o => if pg = page ∧ o = off then d else banks pg o) page (off + 1) ds

/-- Modelled from the spec: the effect of one successful bus transaction on the
simulated chip (wire protocol of the external interfaces).  A transaction whose
first byte is the command register selects the page named by the second byte
(no effect for an unsupported page value); any other transaction is a data
transaction on the selected page: the first byte is the register offset, the
remaining bytes are written from there on.  The second component is the byte
the chip returns to the one-byte read that ends the transaction. -/
def Chip.transact (c : IssiConsts) (chip : Chip) (txdata : List Nat) : Chip × Nat :=
  match txdata with
  | [] => (chip, 0)
  | b :: rest =>
    if b = c.ISSI_COMMANDREGISTER then
      match rest with
      | [] => (chip, chip.selected)
      | p :: _ =>
        if validPage c p then ({ chip with selected := p }, p) else (chip, chip.selected)
    else
      let banks := writeBurst chip.banks chip.selected b rest
      ({ chip with banks := banks, applied := chip.applied ++ [(chip.selected, txdata)] },
        banks chip.selected (b + rest.length))

/-! ## Program state -/

/-- The global variables of `led_controller.c`, the simulated chip, the
outcome of every bus transaction (by transaction number) and the trace of
effects issued so far. -/
structure World where
  /-- `uint8_t tx[2]`. -/
  tx : Buf
  /-- `uint8_t rx[1]`. -/
  rx : Buf
  /-- `uint8_t full_page[0xB4+1]`. -/
  full_page : Buf
  chip : Chip
  /-- Status that the `n`-th bus transaction returns. -/
  outcome : Nat → msg_t
  /-- Number of bus transactions issued so far. -/
  ntx : Nat
  trace : List Effect

/-- Buffers that the sources pass by address. -/
inductive Ptr
  | tx
  | rx
  | full_page
  deriving DecidableEq, Repr

/-- Contents of the buffer behind a pointer. -/
def World.deref (w : World) : Ptr → Buf
  | .tx => w.tx
  | .rx => w.rx
  | .full_page => w.full_page

/-- Append one effect to the trace. -/
def World.emit (w : World) (e : Effect) : World := { w with trace := w.trace ++ [e] }

/-- `full_page` is all zero (all `0xB4+1` bytes). -/
def World.fullPageZero (w : World) : Prop := ∀ i, i < 0xB4 + 1 → w.full_page i = 0

instance (w : World) : Decidable w.fullPageZero := by
  unfold World.fullPageZero; exact inferInstance

/-- Modelled from the spec: the Transport, `i2cMasterTransmitTimeout` of the
ChibiOS HAL with receive buffer `rx`.  The transaction is recorded, its status
is the next outcome; a successful transaction is applied to the simulated chip
and stores the byte read in `rx[0]`, a failed one changes neither ("fails
atomically"). -/
def i2cMasterTransmitTimeout (c : IssiConsts) (w : World) (addr : Nat) (txbuf : Ptr)
    (txbytes rxbytes timeout : Nat) : World × msg_t :=
  let txdata := (w.deref txbuf).bytes txbytes
  let r := w.outcome w.ntx
  let res := Chip.transact c w.chip txdata
  ({ w with
      chip := if r = MSG_OK then res.1 else w.chip
      rx := if r = MSG_OK then w.rx.set 0 res.2 else w.rx
      ntx := w.ntx + 1
      trace := w.trace ++ [Effect.i2cMasterTransmitTimeout addr txdata rxbytes timeout] }, r)

/-- ChibiOS `chThdSleepMilliseconds`. -/
def chThdSleepMilliseconds (w : World) (ms : Nat) : World :=
  w.emit (Effect.chThdSleepMilliseconds ms)

/-- ChibiOS `palSetPadMode`. -/
def palSetPadMode (w : World) (port : Port) (pad : Nat) (mode : PadMode) : World :=
  w.emit (Effect.palSetPadMode port pad mode)

/-- ChibiOS `palSetPad`. -/
def palSetPad (w : World) (port : Port) (pad : Nat) : World :=
  w.emit (Effect.palSetPad port pad)

/-! ## `led_controller.c` -/

/-- The constant `issi_leds_mask[0x12]`. -/
def issi_leds_mask : List Nat :=
  [0xFF, 0x00, 0xFF, 0x00, 0xFF, 0x00, 0xFF, 0x00, 0xFF,
   0x00, 0xFF, 0x00, 0xFF, 0x00, 0xFF, 0x00, 0x7F, 0x00]

/-- `msg_t issi_select_page(uint8_t page)`. -/
def issi_select_page (c : IssiConsts) (w : World) (page : Nat) : World × msg_t :=
  let w := { w with tx := w.tx.set 0 c.ISSI_COMMANDREGISTER }
  let w := { w with tx := w.tx.set 1 page }
  i2cMasterTransmitTimeout c w c.ISSI_ADDR_DEFAULT Ptr.tx 2 1 c.ISSI_TIMEOUT

/-- `msg_t issi_write_data(uint8_t page, uint8_t *buffer, uint8_t size)`; the
status of the page select is discarded. -/
def issi_write_data (c : IssiConsts) (w : World) (page : Nat) (buffer : Ptr) (size : Nat) :
    World × msg_t :=
  let w := (issi_select_page c w page).1
  i2cMasterTransmitTimeout c w c.ISSI_ADDR_DEFAULT buffer size 1 c.ISSI_TIMEOUT

/-- `msg_t issi_write_register(uint8_t page, uint8_t reg, uint8_t data)`; the
status of the page select is discarded. -/
def issi_write_register (c : IssiConsts) (w : World) (page reg data : Nat) : World × msg_t :=
  let w := (issi_select_page c w page).1
  let w := { w with tx := w.tx.set 0 reg }
  let w := { w with tx := w.tx.set 1 data }
  i2cMasterTransmitTimeout c w c.ISSI_ADDR_DEFAULT Ptr.tx 2 1 c.ISSI_TIMEOUT

/-- `msg_t issi_read_register(uint8_t b, uint8_t reg)`; the value read is left
in `rx[0]`. -/
def issi_read_register (c : IssiConsts) (w : World) (b reg : Nat) : World × msg_t :=
  let w := (issi_select_page c w b).1
  let w := { w with tx := w.tx.set 0 reg }
  i2cMasterTransmitTimeout c w c.ISSI_ADDR_DEFAULT Ptr.tx 1 1 c.ISSI_TIMEOUT

/-- Body of the loop `for(i=0; i<8; i++)` of `issi_init`. -/
def issi_init_page (c : IssiConsts) (w : World) (i : Nat) : World :=
  let w := (issi_write_data c w i Ptr.full_page (0xB4 + 1)).1
  chThdSleepMilliseconds w 1

/-- `void issi_init(void)`; every status is discarded. -/
def issi_init (c : IssiConsts) (w : World) : World :=
  let w := (issi_write_data c w c.ISSI_FUNCTIONREG Ptr.full_page (0xD + 1)).1
  let w := palSetPadMode w Port.GPIOB 16 PadMode.PAL_MODE_OUTPUT_PUSHPULL
  let w := palSetPad w Port.GPIOB 16
  let w := chThdSleepMilliseconds w 10
  let w := (issi_write_register c w c.ISSI_FUNCTIONREG c.ISSI_REG_SHUTDOWN 0).1
  let w := chThdSleepMilliseconds w 10
  let w := (issi_write_data c w c.ISSI_FUNCTIONREG Ptr.full_page (0xD + 1)).1
  let w := chThdSleepMilliseconds w 10
  let w := (issi_write_register c w c.ISSI_FUNCTIONREG c.ISSI_REG_SHUTDOWN
    c.ISSI_REG_SHUTDOWN_ON).1
  let w := chThdSleepMilliseconds w 10
  (List.range 8).foldl (issi_init_page c) w

/-- `memcpy(dst + off, src, n)` on a buffer. -/
def memcpy (dst : Buf) (off : Nat) (src : List Nat) (n : Nat) : Buf :=
  fun j => if off ≤ j ∧ j < off + n then src.getD (j - off) 0 else dst j

/-- The part of `early_init_hook` under the comment "enable WF LEDs on page 0". -/
def enable_leds_step (c : IssiConsts) (w : World) : World :=
  let w := { w with full_page := w.full_page.set 0 0 }
  let w := { w with full_page := memcpy w.full_page 1 issi_leds_mask 0x12 }
  (issi_write_data c w 0 Ptr.full_page (1 + 0x12)).1

/-- `void early_init_hook(void)`. -/
def early_init_hook (c : IssiConsts) (w : World) : World :=
  let w := palSetPadMode w Port.GPIOB 0 PadMode.PAL_MODE_ALTERNATIVE_2
  let w := palSetPadMode w Port.GPIOB 1 PadMode.PAL_MODE_ALTERNATIVE_2
  let w := w.emit (Effect.i2cStart 400000)
  let w := w.emit Effect.i2cSetHighDrive
  let w := w.emit (Effect.i2cSetFLT 4)
  let w := chThdSleepMilliseconds w 10
  let w := issi_init c w
  enable_leds_step c w

/-! ## `keymap_flabber.c` -/

/-- `#define ACTION_LEDS_ALL 1`. -/
def ACTION_LEDS_ALL : Nat := 1

/-- `#define ACTION_LEDS_GAME 2`. -/
def ACTION_LEDS_GAME : Nat := 2

/-- TMK `keyevent_t` (key position, pressed flag, time stamp). -/
structure keyevent_t where
  col : Nat
  row : Nat
  pressed : Bool
  time : Nat
  deriving DecidableEq, Repr

/-- TMK `keyrecord_t`. -/
structure keyrecord_t where
  event : keyevent_t
  tap : Nat
  deriving DecidableEq, Repr

/-- `void action_function(keyrecord_t *record, uint8_t id, uint8_t opt)`: the
effects it issues, in order. -/
def action_function (record : keyrecord_t) (id : Nat) (_opt : Nat) : List Effect :=
  if id = ACTION_LEDS_ALL then
    if record.event.pressed then
      [Effect.chMBPost Mailbox.led_mailbox led_msg.LED_MSG_GAME_TOGGLE TIME_IMMEDIATE]
    else []
  else if id = ACTION_LEDS_GAME then
    if record.event.pressed then
      [Effect.chMBPost Mailbox.led_mailbox led_msg.LED_MSG_ALL_TOGGLE TIME_IMMEDIATE]
    else []
  else []

/-! ## Vocabulary of the claims and concrete states -/

/-- The page-select transaction: two bytes, command register then page. -/
def selectPage (c : IssiConsts) (page : Nat) : Effect :=
  Effect.i2cMasterTransmitTimeout c.ISSI_ADDR_DEFAULT [c.ISSI_COMMANDREGISTER, page] 1
    c.ISSI_TIMEOUT

/-- A data transaction carrying the given bytes. -/
def dataTransaction (c : IssiConsts) (txdata : List Nat) : Effect :=
  Effect.i2cMasterTransmitTimeout c.ISSI_ADDR_DEFAULT txdata 1 c.ISSI_TIMEOUT

/-- A block write to a page: page select, then one burst (start offset first). -/
def blockWrite (c : IssiConsts) (page : Nat) (burst : List Nat) : List Effect :=
  [selectPage c page, dataTransaction c burst]

/-- A register write on a page: page select, then the pair (register, value). -/
def registerWrite (c : IssiConsts) (page reg value : Nat) : List Effect :=
  [selectPage c page, dataTransaction c [reg, value]]

/-- Data transactions that the simulated chip applied between two states, each
with the page whose bank it was applied to. -/
def appliedDuring (before after : World) : List (Nat × List Nat) :=
  after.chip.applied.drop before.chip.applied.length

/-- Effects of one round of the page loop of `issi_init` for a given content of
`full_page`. -/
def pageRound (c : IssiConsts) (fp : Buf) (i : Nat) : List Effect :=
  blockWrite c i (fp.bytes (0xB4 + 1)) ++ [Effect.chThdSleepMilliseconds 1]

/-- Effects issued by `issi_init` for a given content of `full_page`. -/
def issi_init_issued (c : IssiConsts) (fp : Buf) : List Effect :=
  blockWrite c c.ISSI_FUNCTIONREG (fp.bytes (0xD + 1)) ++
  [Effect.palSetPadMode Port.GPIOB 16 PadMode.PAL_MODE_OUTPUT_PUSHPULL,
   Effect.palSetPad Port.GPIOB 16,
   Effect.chThdSleepMilliseconds 10] ++
  registerWrite c c.ISSI_FUNCTIONREG c.ISSI_REG_SHUTDOWN 0 ++
  [Effect.chThdSleepMilliseconds 10] ++
  blockWrite c c.ISSI_FUNCTIONREG (fp.bytes (0xD + 1)) ++
  [Effect.chThdSleepMilliseconds 10] ++
  registerWrite c c.ISSI_FUNCTIONREG c.ISSI_REG_SHUTDOWN c.ISSI_REG_SHUTDOWN_ON ++
  [Effect.chThdSleepMilliseconds 10] ++
  (List.range 8).flatMap (pageRound c fp)

/-- The sequence of the specification: zero-function-page, shutdown gate high
(pin 16 of port B made a push-pull output and set), 10 ms, software-shutdown
assert, 10 ms, zero-function-page, 10 ms, software-shutdown release, 10 ms,
then pages 0 to 7 in increasing order, each block write followed by 1 ms. -/
def issi_init_sequence (c : IssiConsts) : List Effect :=
  blockWrite c c.ISSI_FUNCTIONREG (List.replicate (0xD + 1) 0) ++
  [Effect.palSetPadMode Port.GPIOB 16 PadMode.PAL_MODE_OUTPUT_PUSHPULL,
   Effect.palSetPad Port.GPIOB 16,
   Effect.chThdSleepMilliseconds 10] ++
  registerWrite c c.ISSI_FUNCTIONREG c.ISSI_REG_SHUTDOWN 0 ++
  [Effect.chThdSleepMilliseconds 10] ++
  blockWrite c c.ISSI_FUNCTIONREG (List.replicate (0xD + 1) 0) ++
  [Effect.chThdSleepMilliseconds 10] ++
  registerWrite c c.ISSI_FUNCTIONREG c.ISSI_REG_SHUTDOWN c.ISSI_REG_SHUTDOWN_ON ++
  [Effect.chThdSleepMilliseconds 10] ++
  (List.range 8).flatMap fun i =>
    blockWrite c i (List.replicate (0xB4 + 1) 0) ++ [Effect.chThdSleepMilliseconds 1]

/-- Durations of the sleeps of an effect sequence, in order. -/
def sleepDurations (l : List Effect) : List Nat :=
  l.filterMap fun e =>
    match e with
    | Effect.chThdSleepMilliseconds ms => some ms
    | _ => none

/-- A transaction that the simulated chip treats as a data transaction: it has a
first byte and that byte is not the command register. -/
def isData (c : IssiConsts) (txdata : List Nat) : Bool :=
  match txdata with
  | [] => false
  | b :: _ => decide (b ≠ c.ISSI_COMMANDREGISTER)

/-- Page selected on the simulated chip once the page-select transaction of a
call naming page `p` has been issued in state `w`. -/
def pageAfterSelect (c : IssiConsts) (w : World) (p : Nat) : Nat :=
  if w.outcome w.ntx = MSG_OK ∧ validPage c p then p else w.chip.selected

/-- A state for concrete evaluations: buffers and chip registers all zero, page
`q` selected on the chip, nothing issued yet, and the given outcomes. -/
def testWorld (q : Nat) (outcome : Nat → msg_t) : World :=
  { tx := fun _ => 0
    rx := fun _ => 0
    full_page := fun _ => 0
    chip := { selected := q, banks := fun _ _ => 0, applied := [] }
    outcome := outcome
    ntx := 0
    trace := [] }

/-- Outcomes in which only the first transaction fails. -/
def firstFails : Nat → msg_t := fun n => if n = 0 then MSG_TIMEOUT else MSG_OK

/-- Outcomes in which only the second transaction fails. -/
def secondFails : Nat → msg_t := fun n => if n = 1 then MSG_TIMEOUT else MSG_OK

/-- Outcomes in which every transaction succeeds. -/
def allSucceed : Nat → msg_t := fun _ => MSG_OK

/-- Outcomes in which every transaction fails. -/
def allFail : Nat → msg_t := fun _ => MSG_TIMEOUT

/-- A pressed key record for concrete evaluations. -/
def pressedRecord : keyrecord_t :=
  { event := { col := 0, row := 4, pressed := true, time := 0 }, tap := 0 }

/-- The two LED matrices of the chip. -/
inductive Matrix
  | A
  | B
  deriving DecidableEq, Repr

/-- Index of a matrix in the byte order "CA1, CB1, CA2, CB2, ...". -/
def Matrix.index : Matrix → Nat
  | .A => 0
  | .B => 1

/-- Offset of the on/off byte of a matrix row (rows count from 1). -/
def ledByte (m : Matrix) (row : Nat) : Nat := 2 * (row - 1) + m.index

/-- Bit `k` of a byte. -/
def byteBit (b k : Nat) : Bool := decide (b / 2 ^ k % 2 = 1)

/-- Whether `issi_leds_mask` has the bit of LED (matrix, row, column) set
(columns count from 1, column 1 is the least significant bit). -/
def maskBit (m : Matrix) (row col : Nat) : Bool :=
  byteBit (issi_leds_mask.getD (ledByte m row) 0) (col - 1)

/-- The entries of the comment "WF LED MAP", in the order written there (two
digits: row, column; matrix A). -/
def wf_led_map : List Nat :=
  [11, 12, 13, 14, 15, 16, 17, 18, 21, 22, 23, 24, 25, 26, 27, 28,
   31, 32, 33, 34, 35, 36, 37, 38, 41, 42, 43, 44, 45, 46, 47,
   48, 51, 52, 53, 54, 55, 56, 57, 58, 61, 62, 63, 64, 65, 66,
   67, 68, 71, 72, 73, 74, 75, 76, 77, 78, 81, 82, 83, 84, 85,
   86, 87, 88, 91, 92, 93, 94, 95, 96, 97]

/-- Effects issued by `early_init_hook` for a given content of `full_page` on
entry. -/
def early_init_issued (c : IssiConsts) (fp : Buf) : List Effect :=
  [Effect.palSetPadMode Port.GPIOB 0 PadMode.PAL_MODE_ALTERNATIVE_2,
   Effect.palSetPadMode Port.GPIOB 1 PadMode.PAL_MODE_ALTERNATIVE_2,
   Effect.i2cStart 400000,
   Effect.i2cSetHighDrive,
   Effect.i2cSetFLT 4,
   Effect.chThdSleepMilliseconds 10] ++
  issi_init_issued c fp ++
  blockWrite c 0 (0x00 :: issi_leds_mask)

/-- The claim as the specification words it: `issi_init` issues the
transactions number `ntx` to `ntx + 23` of `early_init_hook`; if one of them
fails, no transaction after it is issued. -/
def NoWriteAfterFailedInit (c : IssiConsts) (w : World) : Prop :=
  ∀ k, k < 24 → w.outcome (w.ntx + k) ≠ MSG_OK → (early_init_hook c w).ntx ≤ w.ntx + k + 1

instance (c : IssiConsts) (w : World) : Decidable (NoWriteAfterFailedInit c w) := by
  unfold NoWriteAfterFailedInit; exact inferInstance

/-- A state whose chip registers all hold `0xAA`, with zero buffers, page 5
selected and every transaction succeeding. -/
def dirtyChipWorld : World :=
  { tx := fun _ => 0
    rx := fun _ => 0
    full_page := fun _ => 0
    chip := { selected := 5, banks := fun _ _ => 0xAA, applied := [] }
    outcome := allSucceed
    ntx := 0
    trace := [] }

/-! ## Basic facts about the state-passing functions -/

section basic

variable (c : IssiConsts) (w : World)

@[simp] theorem i2c_snd (a : Nat) (p : Ptr) (n r t : Nat) :
    (i2cMasterTransmitTimeout c w a p n r t).2 = w.outcome w.ntx := rfl

@[simp] theorem i2c_trace (a : Nat) (p : Ptr) (n r t : Nat) :
    (i2cMasterTransmitTimeout c w a p n r t).1.trace =
      w.trace ++ [Effect.i2cMasterTransmitTimeout a ((w.deref p).bytes n) r t] := rfl

@[simp] theorem i2c_ntx (a : Nat) (p : Ptr) (n r t : Nat) :
    (i2cMasterTransmitTimeout c w a p n r t).1.ntx = w.ntx + 1 := rfl

@[simp] theorem i2c_outcome (a : Nat) (p : Ptr) (n r t : Nat) :
    (i2cMasterTransmitTimeout c w a p n r t).1.outcome = w.outcome := rfl

@[simp] theorem i2c_full_page (a : Nat) (p : Ptr) (n r t : Nat) :
    (i2cMasterTransmitTimeout c w a p n r t).1.full_page = w.full_page := rfl

@[simp] theorem i2c_tx (a : Nat) (p : Ptr) (n r t : Nat) :
    (i2cMasterTransmitTimeout c w a p n r t).1.tx = w.tx := rfl

theorem bytes_two (b : Buf) : b.bytes 2 = [b 0, b 1] := rfl

theorem bytes_one (b : Buf) : b.bytes 1 = [b 0] := rfl

@[simp] theorem select_snd (page : Nat) :
    (issi_select_page c w page).2 = w.outcome w.ntx := rfl

@[simp] theorem select_trace (page : Nat) :
    (issi_select_page c w page).1.trace = w.trace ++ [selectPage c page] := by
  simp [issi_select_page, selectPage, World.deref, bytes_two, Buf.set]

@[simp] theorem select_ntx (page : Nat) :
    (issi_select_page c w page).1.ntx = w.ntx + 1 := rfl

@[simp] theorem select_outcome (page : Nat) :
    (issi_select_page c w page).1.outcome = w.outcome := rfl

@[simp] theorem select_full_page (page : Nat) :
    (issi_select_page c w page).1.full_page = w.full_page := rfl

@[simp] theorem write_data_snd (page : Nat) (p : Ptr) (n : Nat) :
    (issi_write_data c w page p n).2 = w.outcome (w.ntx + 1) := rfl

@[simp] theorem write_data_ntx (page : Nat) (p : Ptr) (n : Nat) :
    (issi_write_data c w page p n).1.ntx = w.ntx + 2 := rfl

@[simp] theorem write_data_outcome (page : Nat) (p : Ptr) (n : Nat) :
    (issi_write_data c w page p n).1.outcome = w.outcome := rfl

@[simp] theorem write_data_full_page (page : Nat) (p : Ptr) (n : Nat) :
    (issi_write_data c w page p n).1.full_page = w.full_page := rfl

@[simp] theorem write_data_trace (page n : Nat) :
    (issi_write_data c w page Ptr.full_page n).1.trace =
      w.trace ++ blockWrite c page (w.full_page.bytes n) := by
  simp [issi_write_data, blockWrite, dataTransaction, World.deref]

@[simp] theorem write_register_snd (page reg data : Nat) :
    (issi_write_register c w page reg data).2 = w.outcome (w.ntx + 1) := rfl

@[simp] theorem write_register_ntx (page reg data : Nat) :
    (issi_write_register c w page reg data).1.ntx = w.ntx + 2 := rfl

@[simp] theorem write_register_outcome (page reg data : Nat) :
    (issi_write_register c w page reg data).1.outcome = w.outcome := rfl

@[simp] theorem write_register_full_page (page reg data : Nat) :
    (issi_write_register c w page reg data).1.full_page = w.full_page := rfl

@[simp] theorem write_register_trace (page reg data : Nat) :
    (issi_write_register c w page reg data).1.trace =
      w.trace ++ registerWrite c page reg data := by
  simp [issi_write_register, registerWrite, dataTransaction, World.deref, bytes_two, Buf.set]

@[simp] theorem sleep_trace (ms : Nat) :
    (chThdSleepMilliseconds w ms).trace = w.trace ++ [Effect.chThdSleepMilliseconds ms] := rfl

@[simp] theorem sleep_ntx (ms : Nat) : (chThdSleepMilliseconds w ms).ntx = w.ntx := rfl

@[simp] theorem sleep_outcome (ms : Nat) :
    (chThdSleepMilliseconds w ms).outcome = w.outcome := rfl

@[simp] theorem sleep_full_page (ms : Nat) :
    (chThdSleepMilliseconds w ms).full_page = w.full_page := rfl

@[simp] theorem sleep_chip (ms : Nat) : (chThdSleepMilliseconds w ms).chip = w.chip := rfl

end basic

@[simp] theorem padmode_trace (w : World) (port : Port) (pad : Nat) (mode : PadMode) :
    (palSetPadMode w port pad mode).trace = w.trace ++ [Effect.palSetPadMode port pad mode] :=
  rfl

@[simp] theorem padmode_ntx (w : World) (port : Port) (pad : Nat) (mode : PadMode) :
    (palSetPadMode w port pad mode).ntx = w.ntx := rfl

@[simp] theorem padmode_outcome (w : World) (port : Port) (pad : Nat) (mode : PadMode) :
    (palSetPadMode w port pad mode).outcome = w.outcome := rfl

@[simp] theorem padmode_full_page (w : World) (port : Port) (pad : Nat) (mode : PadMode) :
    (palSetPadMode w port pad mode).full_page = w.full_page := rfl

@[simp] theorem padmode_chip (w : World) (port : Port) (pad : Nat) (mode : PadMode) :
    (palSetPadMode w port pad mode).chip = w.chip := rfl

@[simp] theorem setpad_trace (w : World) (port : Port) (pad : Nat) :
    (palSetPad w port pad).trace = w.trace ++ [Effect.palSetPad port pad] := rfl

@[simp] theorem setpad_ntx (w : World) (port : Port) (pad : Nat) :
    (palSetPad w port pad).ntx = w.ntx := rfl

@[simp] theorem setpad_outcome (w : World) (port : Port) (pad : Nat) :
    (palSetPad w port pad).outcome = w.outcome := rfl

@[simp] theorem setpad_full_page (w : World) (port : Port) (pad : Nat) :
    (palSetPad w port pad).full_page = w.full_page := rfl

@[simp] theorem setpad_chip (w : World) (port : Port) (pad : Nat) :
    (palSetPad w port pad).chip = w.chip := rfl

@[simp] theorem emit_trace (w : World) (e : Effect) : (w.emit e).trace = w.trace ++ [e] := rfl

@[simp] theorem emit_ntx (w : World) (e : Effect) : (w.emit e).ntx = w.ntx := rfl

@[simp] theorem emit_outcome (w : World) (e : Effect) : (w.emit e).outcome = w.outcome := rfl

@[simp] theorem emit_full_page (w : World) (e : Effect) :
    (w.emit e).full_page = w.full_page := rfl

@[simp] theorem emit_chip (w : World) (e : Effect) : (w.emit e).chip = w.chip := rfl

theorem bytes_of_zero (fp : Buf) (n m : Nat) (h : ∀ i, i < m → fp i = 0) (hn : n ≤ m) :
    fp.bytes n = List.replicate n 0 := by
  unfold Buf.bytes
  apply List.ext_getElem
  · simp
  · intro i h1 h2
    simp at h1
    simp [h i (by omega)]

@[simp] theorem init_page_trace (c : IssiConsts) (w : World) (i : Nat) :
    (issi_init_page c w i).trace = w.trace ++ pageRound c w.full_page i := by
  simp [issi_init_page, pageRound]

@[simp] theorem init_page_full_page (c : IssiConsts) (w : World) (i : Nat) :
    (issi_init_page c w i).full_page = w.full_page := rfl

@[simp] theorem init_page_ntx (c : IssiConsts) (w : World) (i : Nat) :
    (issi_init_page c w i).ntx = w.ntx + 2 := rfl

@[simp] theorem init_page_outcome (c : IssiConsts) (w : World) (i : Nat) :
    (issi_init_page c w i).outcome = w.outcome := rfl

theorem init_loop_full_page (c : IssiConsts) (ps : List Nat) (w : World) :
    (ps.foldl (issi_init_page c) w).full_page = w.full_page := by
  induction ps generalizing w with
  | nil => rfl
  | cons p ps ih => simp [ih]

theorem init_loop_outcome (c : IssiConsts) (ps : List Nat) (w : World) :
    (ps.foldl (issi_init_page c) w).outcome = w.outcome := by
  induction ps generalizing w with
  | nil => rfl
  | cons p ps ih => simp [ih]

theorem init_loop_ntx (c : IssiConsts) (ps : List Nat) (w : World) :
    (ps.foldl (issi_init_page c) w).ntx = w.ntx + 2 * ps.length := by
  induction ps generalizing w with
  | nil => rfl
  | cons p ps ih => simp [ih]; omega

theorem init_loop_trace (c : IssiConsts) (ps : List Nat) (w : World) :
    (ps.foldl (issi_init_page c) w).trace = w.trace ++ ps.flatMap (pageRound c w.full_page) := by
  induction ps generalizing w with
  | nil => simp
  | cons p ps ih => simp [ih]

theorem issi_init_trace (c : IssiConsts) (w : World) :
    (issi_init c w).trace = w.trace ++ issi_init_issued c w.full_page := by
  simp [issi_init, issi_init_issued, init_loop_trace]

@[simp] theorem issi_init_full_page (c : IssiConsts) (w : World) :
    (issi_init c w).full_page = w.full_page := by
  simp [issi_init, init_loop_full_page]

@[simp] theorem issi_init_outcome (c : IssiConsts) (w : World) :
    (issi_init c w).outcome = w.outcome := by
  simp [issi_init, init_loop_outcome]

@[simp] theorem issi_init_ntx (c : IssiConsts) (w : World) :
    (issi_init c w).ntx = w.ntx + 24 := by
  simp [issi_init, init_loop_ntx]

theorem issued_of_zero (c : IssiConsts) (fp : Buf) (h : ∀ i, i < 0xB4 + 1 → fp i = 0) :
    issi_init_issued c fp = issi_init_sequence c := by
  have h1 : fp.bytes (0xD + 1) = List.replicate (0xD + 1) 0 :=
    bytes_of_zero fp _ _ h (by decide)
  have h2 : fp.bytes (0xB4 + 1) = List.replicate (0xB4 + 1) 0 :=
    bytes_of_zero fp _ _ h (by decide)
  unfold issi_init_issued issi_init_sequence pageRound
  rw [h1, h2]

theorem writeBurst_apply (banks : Nat → Nat → Nat) (page off : Nat) (ds : List Nat)
    (pg o : Nat) :
    writeBurst banks page off ds pg o =
      if pg = page ∧ off ≤ o ∧ o < off + ds.length then ds.getD (o - off) 0 else banks pg o := by
  induction ds generalizing banks off with
  | nil =>
    have h : ¬ (pg = page ∧ off ≤ o ∧ o < off + ([] : List Nat).length) := by
      simp only [List.length_nil]; omega
    rw [writeBurst, if_neg h]
  | cons d ds ih =>
    rw [writeBurst, ih]
    by_cases hp : pg = page
    · subst hp
      simp only [true_and]
      by_cases ho : o = off
      · subst ho
        have h0 : ¬ (o + 1 ≤ o ∧ o < o + 1 + ds.length) := by omega
        have h1 : o ≤ o ∧ o < o + (d :: ds).length := by
          simp only [List.length_cons]; omega
        rw [if_neg h0, if_pos h1]
        simp
      · by_cases hlt : off + 1 ≤ o ∧ o < off + 1 + ds.length
        · have h1 : off ≤ o ∧ o < off + (d :: ds).length := by
            simp only [List.length_cons]; omega
          have h2 : o - off = (o - (off + 1)) + 1 := by omega
          rw [if_pos hlt, if_pos h1, h2]
          simp
        · have h1 : ¬ (off ≤ o ∧ o < off + (d :: ds).length) := by
            simp only [List.length_cons]; omega
          rw [if_neg hlt, if_neg h1, if_neg ho]
    · simp [hp]

theorem transact_select (c : IssiConsts) (chip : Chip) (page : Nat) :
    (Chip.transact c chip [c.ISSI_COMMANDREGISTER, page]).1 =
      if validPage c page then { chip with selected := page } else chip := by
  simp only [Chip.transact, if_true]
  split_ifs <;> rfl

theorem transact_data (c : IssiConsts) (chip : Chip) (b : Nat) (rest : List Nat)
    (hb : b ≠ c.ISSI_COMMANDREGISTER) :
    Chip.transact c chip (b :: rest) =
      ({ chip with
          banks := writeBurst chip.banks chip.selected b rest
          applied := chip.applied ++ [(chip.selected, b :: rest)] },
        writeBurst chip.banks chip.selected b rest chip.selected (b + rest.length)) := by
  simp [Chip.transact, hb]

theorem transact_applied (c : IssiConsts) (chip : Chip) (txdata : List Nat) :
    (Chip.transact c chip txdata).1.applied =
      chip.applied ++ (if isData c txdata then [(chip.selected, txdata)] else []) := by
  match txdata with
  | [] => simp [Chip.transact, isData]
  | b :: rest =>
    by_cases hb : b = c.ISSI_COMMANDREGISTER
    · match rest with
      | [] => simp [Chip.transact, isData, hb]
      | p :: _ =>
        by_cases hv : validPage c p <;> simp [Chip.transact, isData, hb, hv]
    · simp [transact_data c chip b rest hb, isData, hb]

@[simp] theorem i2c_chip (c : IssiConsts) (w : World) (a : Nat) (p : Ptr) (n r t : Nat) :
    (i2cMasterTransmitTimeout c w a p n r t).1.chip =
      if w.outcome w.ntx = MSG_OK then (Chip.transact c w.chip ((w.deref p).bytes n)).1
      else w.chip := rfl

@[simp] theorem i2c_rx (c : IssiConsts) (w : World) (a : Nat) (p : Ptr) (n r t : Nat) :
    (i2cMasterTransmitTimeout c w a p n r t).1.rx =
      if w.outcome w.ntx = MSG_OK then
        w.rx.set 0 (Chip.transact c w.chip ((w.deref p).bytes n)).2
      else w.rx := rfl

theorem select_chip (c : IssiConsts) (w : World) (page : Nat) :
    (issi_select_page c w page).1.chip =
      { w.chip with selected := pageAfterSelect c w page } := by
  have hb : (Buf.set (Buf.set w.tx 0 c.ISSI_COMMANDREGISTER) 1 page).bytes 2 =
      [c.ISSI_COMMANDREGISTER, page] := by
    simp [bytes_two, Buf.set]
  unfold issi_select_page pageAfterSelect
  simp only [i2c_chip, World.deref, hb, transact_select]
  by_cases h1 : w.outcome w.ntx = MSG_OK <;> by_cases h2 : validPage c page <;> simp [h1, h2]

@[simp] theorem select_banks (c : IssiConsts) (w : World) (page : Nat) :
    (issi_select_page c w page).1.chip.banks = w.chip.banks := by
  rw [select_chip]

@[simp] theorem select_applied (c : IssiConsts) (w : World) (page : Nat) :
    (issi_select_page c w page).1.chip.applied = w.chip.applied := by
  rw [select_chip]

@[simp] theorem select_selected (c : IssiConsts) (w : World) (page : Nat) :
    (issi_select_page c w page).1.chip.selected = pageAfterSelect c w page := by
  rw [select_chip]

theorem appliedDuring_of_append (w w1 : World) (l : List (Nat × List Nat))
    (h : w1.chip.applied = w.chip.applied ++ l) : appliedDuring w w1 = l := by
  simp [appliedDuring, h]

theorem write_register_applied (c : IssiConsts) (w : World) (p reg data : Nat) :
    appliedDuring w (issi_write_register c w p reg data).1 =
      if w.outcome (w.ntx + 1) = MSG_OK ∧ reg ≠ c.ISSI_COMMANDREGISTER then
        [(pageAfterSelect c w p, [reg, data])]
      else [] := by
  apply appliedDuring_of_append
  unfold issi_write_register
  simp only [i2c_chip, World.deref, bytes_two, Buf.set, select_ntx, select_outcome]
  simp only [if_true, show ((1 : Nat) = 0) = False from by simp, if_false]
  by_cases h1 : w.outcome (w.ntx + 1) = MSG_OK
  · by_cases h2 : reg = c.ISSI_COMMANDREGISTER
    · simp [h1, h2, transact_applied, isData]
    · simp [h1, h2, transact_applied, isData]
  · simp [h1]

theorem read_register_applied (c : IssiConsts) (w : World) (p reg : Nat) :
    appliedDuring w (issi_read_register c w p reg).1 =
      if w.outcome (w.ntx + 1) = MSG_OK ∧ reg ≠ c.ISSI_COMMANDREGISTER then
        [(pageAfterSelect c w p, [reg])]
      else [] := by
  apply appliedDuring_of_append
  unfold issi_read_register
  simp only [i2c_chip, World.deref, bytes_one, Buf.set, select_ntx, select_outcome]
  simp only [if_true]
  by_cases h1 : w.outcome (w.ntx + 1) = MSG_OK
  · by_cases h2 : reg = c.ISSI_COMMANDREGISTER
    · simp [h1, h2, transact_applied, isData]
    · simp [h1, h2, transact_applied, isData]
  · simp [h1]

theorem write_data_applied (c : IssiConsts) (w : World) (p : Nat) (buffer : Ptr) (size : Nat) :
    appliedDuring w (issi_write_data c w p buffer size).1 =
      if w.outcome (w.ntx + 1) = MSG_OK ∧
          isData c (((issi_select_page c w p).1.deref buffer).bytes size) then
        [(pageAfterSelect c w p, ((issi_select_page c w p).1.deref buffer).bytes size)]
      else [] := by
  apply appliedDuring_of_append
  unfold issi_write_data
  simp only [i2c_chip, select_ntx, select_outcome]
  by_cases h1 : w.outcome (w.ntx + 1) = MSG_OK
  · simp only [h1, if_true, transact_applied, select_applied, select_selected, true_and]
  · simp [h1]

theorem pageAfterSelect_eq (c : IssiConsts) (w : World) (p : Nat) (hp : validPage c p)
    (hsel : w.outcome w.ntx = MSG_OK ∨ w.chip.selected = p) : pageAfterSelect c w p = p := by
  unfold pageAfterSelect
  split_ifs with h
  · rfl
  · rcases hsel with h1 | h1
    · exact absurd ⟨h1, hp⟩ h
    · exact h1

theorem write_register_banks (c : IssiConsts) (w : World) (p reg data : Nat)
    (h1 : w.outcome (w.ntx + 1) = MSG_OK) (h2 : reg ≠ c.ISSI_COMMANDREGISTER) :
    (issi_write_register c w p reg data).1.chip.banks =
      writeBurst w.chip.banks (pageAfterSelect c w p) reg [data] := by
  have hb : (Buf.set (Buf.set (issi_select_page c w p).1.tx 0 reg) 1 data).bytes 2 =
      [reg, data] := by
    simp [bytes_two, Buf.set]
  unfold issi_write_register
  simp only [i2c_chip, World.deref, hb, select_ntx, select_outcome, h1, if_true,
    transact_data _ _ _ _ h2, select_banks, select_selected]

theorem write_register_banks_of_fail (c : IssiConsts) (w : World) (p reg data : Nat)
    (h1 : w.outcome (w.ntx + 1) ≠ MSG_OK) :
    (issi_write_register c w p reg data).1.chip.banks = w.chip.banks := by
  unfold issi_write_register
  simp only [i2c_chip, select_ntx, select_outcome, h1, if_false, select_banks]

theorem read_register_rx (c : IssiConsts) (w : World) (p reg : Nat)
    (h1 : w.outcome (w.ntx + 1) = MSG_OK) (h2 : reg ≠ c.ISSI_COMMANDREGISTER) :
    (issi_read_register c w p reg).1.rx 0 = w.chip.banks (pageAfterSelect c w p) reg := by
  have hb : (Buf.set (issi_select_page c w p).1.tx 0 reg).bytes 1 = [reg] := by
    simp [bytes_one, Buf.set]
  unfold issi_read_register
  simp only [i2c_rx, World.deref, hb, select_ntx, select_outcome, h1, if_true,
    transact_data _ _ _ _ h2, select_banks, select_selected]
  simp [Buf.set, writeBurst]

theorem mask_bits_fin :
    ∀ (row : Fin 10) (col : Fin 9), 1 ≤ row.val → 1 ≤ col.val →
      (maskBit Matrix.A row.val col.val = true ↔ ¬ (row.val = 9 ∧ col.val = 8)) ∧
      maskBit Matrix.B row.val col.val = false ∧
      (maskBit Matrix.A row.val col.val = true ↔ 10 * row.val + col.val ∈ wf_led_map) := by
  decide

theorem enable_bytes (fp : Buf) :
    (memcpy (fp.set 0 0) 1 issi_leds_mask 0x12).bytes (1 + 0x12) = 0x00 :: issi_leds_mask := by
  rfl

@[simp] theorem enable_leds_trace (c : IssiConsts) (w : World) :
    (enable_leds_step c w).trace = w.trace ++ blockWrite c 0 (0x00 :: issi_leds_mask) := by
  simp [enable_leds_step, enable_bytes]

@[simp] theorem enable_leds_ntx (c : IssiConsts) (w : World) :
    (enable_leds_step c w).ntx = w.ntx + 2 := rfl

theorem write_data_full_page_chip (c : IssiConsts) (w : World) (p n b : Nat) (rest : List Nat)
    (hbytes : w.full_page.bytes n = b :: rest) (hb : b ≠ c.ISSI_COMMANDREGISTER)
    (h2 : w.outcome (w.ntx + 1) = MSG_OK) :
    (issi_write_data c w p Ptr.full_page n).1.chip.banks =
      writeBurst w.chip.banks (pageAfterSelect c w p) b rest := by
  unfold issi_write_data
  simp only [i2c_chip, World.deref, select_full_page, hbytes, select_ntx, select_outcome, h2,
    if_true, transact_data _ _ _ _ hb, select_banks, select_selected]

theorem enable_leds_step_eq (c : IssiConsts) (w : World) :
    enable_leds_step c w =
      (issi_write_data c
        { w with full_page := memcpy (w.full_page.set 0 0) 1 issi_leds_mask 0x12 } 0
        Ptr.full_page (1 + 0x12)).1 := rfl

theorem enable_leds_banks (c : IssiConsts) (w : World) (hcmd : c.ISSI_COMMANDREGISTER ≠ 0)
    (hsel : w.outcome w.ntx = MSG_OK ∨ w.chip.selected = 0)
    (hdata : w.outcome (w.ntx + 1) = MSG_OK) :
    (enable_leds_step c w).chip.banks = writeBurst w.chip.banks 0 0 issi_leds_mask := by
  rw [enable_leds_step_eq]
  rw [write_data_full_page_chip c
    { w with full_page := memcpy (w.full_page.set 0 0) 1 issi_leds_mask 0x12 } 0 (1 + 0x12) 0
    issi_leds_mask (enable_bytes w.full_page) (fun h => hcmd h.symm) hdata]
  rw [pageAfterSelect_eq c
    { w with full_page := memcpy (w.full_page.set 0 0) 1 issi_leds_mask 0x12 } 0
    (Or.inl (by decide)) hsel]

theorem enable_leds_banks_of_fail (c : IssiConsts) (w : World)
    (hdata : w.outcome (w.ntx + 1) ≠ MSG_OK) :
    (enable_leds_step c w).chip.banks = w.chip.banks := by
  rw [enable_leds_step_eq]
  unfold issi_write_data
  simp only [i2c_chip, select_ntx, select_outcome, hdata, if_false, select_banks]

theorem early_init_hook_trace (c : IssiConsts) (w : World) :
    (early_init_hook c w).trace = w.trace ++ early_init_issued c w.full_page := by
  simp [early_init_hook, early_init_issued, issi_init_trace]

theorem getD_replicate_zero (n k : Nat) : (List.replicate n 0).getD k 0 = 0 := by
  induction n generalizing k with
  | zero => simp
  | succ n ih =>
    cases k with
    | zero => simp [List.replicate_succ]
    | succ k => simp [List.replicate_succ, ih]

theorem init_page_banks (c : IssiConsts) (w : World) (i : Nat) (hi : i < 8)
    (hcmd : c.ISSI_COMMANDREGISTER ≠ 0) (hzero : w.fullPageZero)
    (h1 : w.outcome w.ntx = MSG_OK) (h2 : w.outcome (w.ntx + 1) = MSG_OK) (pg o : Nat) :
    (issi_init_page c w i).chip.banks pg o =
      if pg = i ∧ o < 0xB4 then 0 else w.chip.banks pg o := by
  have hbytes : w.full_page.bytes (0xB4 + 1) = 0 :: List.replicate 0xB4 0 :=
    bytes_of_zero w.full_page _ _ hzero (le_refl _)
  unfold issi_init_page
  rw [sleep_chip, write_data_full_page_chip c w i (0xB4 + 1) 0 (List.replicate 0xB4 0) hbytes
    (fun h => hcmd h.symm) h2, pageAfterSelect_eq c w i (Or.inl hi) (Or.inl h1),
    writeBurst_apply, getD_replicate_zero]
  simp only [List.length_replicate, Nat.zero_add, Nat.zero_le, true_and]

theorem init_loop_zero (c : IssiConsts) (hcmd : c.ISSI_COMMANDREGISTER ≠ 0) (ps : List Nat)
    (hps : ∀ p ∈ ps, p < 8) (w : World) (hzero : w.fullPageZero)
    (hok : ∀ k, k < 2 * ps.length → w.outcome (w.ntx + k) = MSG_OK) (pg o : Nat)
    (ho : o < 0xB4) (h : pg ∈ ps ∨ w.chip.banks pg o = 0) :
    (ps.foldl (issi_init_page c) w).chip.banks pg o = 0 := by
  induction ps generalizing w with
  | nil =>
    rcases h with h | h
    · simp at h
    · exact h
  | cons p ps ih =>
    have hp : p < 8 := hps p (List.mem_cons_self _ _)
    have h1 : w.outcome w.ntx = MSG_OK :=
      hok 0 (by simp only [List.length_cons]; omega)
    have h2 : w.outcome (w.ntx + 1) = MSG_OK :=
      hok 1 (by simp only [List.length_cons]; omega)
    have hstep := init_page_banks c w p hp hcmd hzero h1 h2 pg o
    rw [List.foldl_cons]
    apply ih (fun q hq => hps q (List.mem_cons_of_mem _ hq))
    · exact hzero
    · intro k hk
      have := hok (k + 2) (by simp only [List.length_cons]; omega)
      simp only [init_page_outcome, init_page_ntx]
      rw [← this]
      congr 1
      omega
    · by_cases hpg : pg = p ∧ o < 0xB4
      · right
        rw [hstep, if_pos hpg]
      · rcases h with h | h
        · rcases List.mem_cons.mp h with h | h
          · exact absurd ⟨h, ho⟩ hpg
          · exact Or.inl h
        · right
          rw [hstep, if_neg hpg]
          exact h

theorem issi_init_page_suffix (c : IssiConsts) (w : World) (hzero : w.fullPageZero) :
    ∃ pre, (issi_init c w).trace = pre ++ (List.range 8).flatMap fun i =>
      blockWrite c i (0x00 :: List.replicate 0xB4 0) ++ [Effect.chThdSleepMilliseconds 1] := by
  rw [issi_init_trace, issued_of_zero c w.full_page hzero]
  unfold issi_init_sequence
  exact ⟨_, (List.append_assoc _ _ _).symm⟩

/-! ## C1: effect sequence of `issi_init` -/

/-- C1: whenever `full_page` is all zero on entry, and whatever the outcomes of
the bus transactions, `issi_init` appends to the trace exactly the sequence
`issi_init_sequence`: block write of zeros to the function page, shutdown pin
made an output and driven high, 10 ms, register write of 0 to the shutdown
register of the function page, 10 ms, block write of zeros to the function
page, 10 ms, register write of `ISSI_REG_SHUTDOWN_ON` to the shutdown register,
10 ms, then for pages 0..7 in order a block write followed by 1 ms.  The sleeps
are four settle delays of 10 ms, one after each shutdown-related step, and
eight inter-page delays of 1 ms: all non-zero, every inter-page delay strictly
shorter than every settle delay. -/
theorem issi_init_effects (c : IssiConsts) (w : World) (hzero : w.fullPageZero) :
    (issi_init c w).trace = w.trace ++ issi_init_sequence c ∧
    sleepDurations (issi_init_sequence c) = [10, 10, 10, 10, 1, 1, 1, 1, 1, 1, 1, 1] ∧
    (∀ ms ∈ sleepDurations (issi_init_sequence c), 0 < ms) ∧
    (∀ settle ∈ (sleepDurations (issi_init_sequence c)).take 4,
      ∀ inter ∈ (sleepDurations (issi_init_sequence c)).drop 4, inter < settle) := by
  have hs : sleepDurations (issi_init_sequence c) = [10, 10, 10, 10, 1, 1, 1, 1, 1, 1, 1, 1] :=
    rfl
  refine ⟨?_, hs, ?_, ?_⟩
  · rw [issi_init_trace, issued_of_zero c w.full_page hzero]
  · rw [hs]
    decide
  · rw [hs]
    decide

/-- Witness for C1: `issi_init` run on the all-zero state with every
transaction failing. -/
theorem issi_init_effects_witness :
    (testWorld 0 allFail).fullPageZero ∧
    (issi_init datasheetConsts (testWorld 0 allFail)).trace =
      (testWorld 0 allFail).trace ++ issi_init_sequence datasheetConsts :=
  ⟨fun _ _ => rfl, (issi_init_effects datasheetConsts (testWorld 0 allFail) (fun _ _ => rfl)).1⟩

/-! ## C2: the enable-LEDs step of `early_init_hook` -/

/-- C2 (as stated) fails: with page 3 selected and the page-select transaction
of the enable-LEDs step failing, the burst is still issued and succeeds; it is
applied to page 3, whose offset `0x00` changes from 0 to `0xFF`, and page 0
offsets `0x00`-`0x11` do not read back as the mask (they stay zero). -/
theorem enable_leds_step_lands_on_stale_page :
    (testWorld 3 firstFails).outcome (testWorld 3 firstFails).ntx ≠ MSG_OK ∧
    appliedDuring (testWorld 3 firstFails)
      (enable_leds_step datasheetConsts (testWorld 3 firstFails)) =
        [(3, 0x00 :: issi_leds_mask)] ∧
    (List.range 0x12).map
        ((enable_leds_step datasheetConsts (testWorld 3 firstFails)).chip.banks 0) =
      List.replicate 0x12 0 ∧
    (List.range 0x12).map
        ((enable_leds_step datasheetConsts (testWorld 3 firstFails)).chip.banks 0) ≠
      [0xFF, 0x00, 0xFF, 0x00, 0xFF, 0x00, 0xFF, 0x00, 0xFF,
       0x00, 0xFF, 0x00, 0xFF, 0x00, 0xFF, 0x00, 0x7F, 0x00] ∧
    (testWorld 3 firstFails).chip.banks 3 0x00 = 0 ∧
    (enable_leds_step datasheetConsts (testWorld 3 firstFails)).chip.banks 3 0x00 = 0xFF := by
  decide

/-- C2 (amended): for every outcome of its two transactions, the enable-LEDs
step of `early_init_hook` issues one block write naming page 0 whose burst is
start offset `0x00` followed by the 18 bytes of `issi_leds_mask` in order.
When the page select succeeds (or page 0 is already selected) and the burst
transaction succeeds (the command register not being register offset 0), the
simulated chip has applied exactly that burst to page 0: offsets `0x00`-`0x11`
of page 0 read back as the mask, every other offset of page 0 and every
register of every other page keeps its value.  When the burst transaction
fails, no register changes. -/
theorem enable_leds_step_effect (c : IssiConsts) (w : World) :
    (enable_leds_step c w).trace = w.trace ++ blockWrite c 0 (0x00 :: issi_leds_mask) ∧
    issi_leds_mask.length = 18 ∧
    (c.ISSI_COMMANDREGISTER ≠ 0 →
      (w.outcome w.ntx = MSG_OK ∨ w.chip.selected = 0) →
      w.outcome (w.ntx + 1) = MSG_OK →
        appliedDuring w (enable_leds_step c w) = [(0, 0x00 :: issi_leds_mask)] ∧
        (List.range 0x12).map ((enable_leds_step c w).chip.banks 0) =
          [0xFF, 0x00, 0xFF, 0x00, 0xFF, 0x00, 0xFF, 0x00, 0xFF,
           0x00, 0xFF, 0x00, 0xFF, 0x00, 0xFF, 0x00, 0x7F, 0x00] ∧
        (∀ o, 0x12 ≤ o → (enable_leds_step c w).chip.banks 0 o = w.chip.banks 0 o) ∧
        (∀ page o, page ≠ 0 →
          (enable_leds_step c w).chip.banks page o = w.chip.banks page o)) ∧
    (w.outcome (w.ntx + 1) ≠ MSG_OK → (enable_leds_step c w).chip.banks = w.chip.banks) := by
  refine ⟨enable_leds_trace c w, rfl, ?_, enable_leds_banks_of_fail c w⟩
  intro hcmd hsel hdata
  have hbanks := enable_leds_banks c w hcmd hsel hdata
  refine ⟨?_, ?_, ?_, ?_⟩
  · rw [enable_leds_step_eq]
    have hw : ∀ x, appliedDuring w x = appliedDuring
        { w with full_page := memcpy (w.full_page.set 0 0) 1 issi_leds_mask 0x12 } x :=
      fun _ => rfl
    rw [hw, write_data_applied]
    simp only [World.deref, select_full_page, enable_bytes]
    rw [pageAfterSelect_eq c
      { w with full_page := memcpy (w.full_page.set 0 0) 1 issi_leds_mask 0x12 } 0
      (Or.inl (by decide)) hsel]
    have hd : isData c (0x00 :: issi_leds_mask) = true := by
      simp [isData]; exact fun h => hcmd h.symm
    simp [hd, hdata]
  · rw [hbanks]
    rfl
  · intro o ho
    rw [hbanks, writeBurst_apply]
    have : ¬ (0 = 0 ∧ 0 ≤ o ∧ o < 0 + issi_leds_mask.length) := by
      have : issi_leds_mask.length = 18 := rfl
      omega
    rw [if_neg this]
  · intro page o hpage
    rw [hbanks, writeBurst_apply]
    rw [if_neg (fun h => hpage h.1)]

/-- Witness for C2 (amended): the step run on the all-zero state with page 7
selected and every transaction succeeding. -/
theorem enable_leds_step_effect_witness :
    (List.range 0x12).map
        ((enable_leds_step datasheetConsts (testWorld 7 allSucceed)).chip.banks 0) =
      [0xFF, 0x00, 0xFF, 0x00, 0xFF, 0x00, 0xFF, 0x00, 0xFF,
       0x00, 0xFF, 0x00, 0xFF, 0x00, 0xFF, 0x00, 0x7F, 0x00] ∧
    (enable_leds_step datasheetConsts (testWorld 7 allSucceed)).chip.banks 0 0x12 = 0 :=
  have h := (enable_leds_step_effect datasheetConsts (testWorld 7 allSucceed)).2.2.1
    (by decide) (Or.inl (by decide)) (by decide)
  ⟨h.2.1, h.2.2.1 0x12 (by decide)⟩

/-! ## C3: status returned by `issi_write_register` -/

/-- C3 (as stated) fails: with page 3 selected, the page-select transaction of
`issi_write_register(0, 0x24, 0xFF)` fails and the (reg, value) transaction
succeeds; the call returns `MSG_OK`. -/
theorem issi_write_register_ignores_select_failure :
    (testWorld 3 firstFails).outcome (testWorld 3 firstFails).ntx ≠ MSG_OK ∧
    (issi_write_register datasheetConsts (testWorld 3 firstFails) 0 0x24 0xFF).2 = MSG_OK := by
  decide

/-- C3 (amended): `issi_write_register` issues the page select and then the
(reg, value) write, and the status it returns is exactly the status of the
second of these, whatever the outcome of the page select: failure is returned
if and only if the (reg, value) transaction fails. -/
theorem issi_write_register_status (c : IssiConsts) (w : World) (page reg data : Nat) :
    (issi_write_register c w page reg data).1.trace =
      w.trace ++ [selectPage c page, dataTransaction c [reg, data]] ∧
    (issi_write_register c w page reg data).2 = w.outcome (w.ntx + 1) ∧
    ((issi_write_register c w page reg data).2 ≠ MSG_OK ↔ w.outcome (w.ntx + 1) ≠ MSG_OK) ∧
    (∀ o : Nat → msg_t, o (w.ntx + 1) = w.outcome (w.ntx + 1) →
      (issi_write_register c { w with outcome := o } page reg data).2 =
        (issi_write_register c w page reg data).2) := by
  refine ⟨by simp [registerWrite], by simp, by simp, ?_⟩
  intro o ho
  rw [write_register_snd, write_register_snd]
  exact ho

/-! ## C4: the page a register operation is applied to -/

/-- C4 (as stated) fails: with page 3 selected and the page-select transaction
failing, the data transaction of `issi_write_register(0, 0x24, 0xFF)` is applied
to the bank of page 3, not to the bank of page 0 that the caller named. -/
theorem register_write_applied_to_stale_page :
    (testWorld 3 firstFails).chip.selected = 3 ∧
    (testWorld 3 firstFails).outcome 0 ≠ MSG_OK ∧
    appliedDuring (testWorld 3 firstFails)
      (issi_write_register datasheetConsts (testWorld 3 firstFails) 0 0x24 0xFF).1 =
        [(3, [0x24, 0xFF])] ∧
    (issi_write_register datasheetConsts (testWorld 3 firstFails) 0 0x24 0xFF).1.chip.banks
      3 0x24 = 0xFF ∧
    (issi_write_register datasheetConsts (testWorld 3 firstFails) 0 0x24 0xFF).1.chip.banks
      0 0x24 = 0 := by
  decide

/-- C4 (amended): for a supported page `p`, if the page-select transaction
succeeds or `p` is already the selected page, every data transaction that
`issi_write_register`, `issi_write_data` and `issi_read_register` get applied
on the simulated chip is applied to the bank of page `p`; and a successful
register write (read) on a register other than the command register is applied
exactly once, to page `p`, storing the value there (returning that register of
page `p` in `rx[0]`). -/
theorem register_ops_target_named_page (c : IssiConsts) (w : World) (p : Nat)
    (hp : validPage c p) (hsel : w.outcome w.ntx = MSG_OK ∨ w.chip.selected = p) :
    (∀ reg data, ∀ e ∈ appliedDuring w (issi_write_register c w p reg data).1, e.1 = p) ∧
    (∀ buffer size, ∀ e ∈ appliedDuring w (issi_write_data c w p buffer size).1, e.1 = p) ∧
    (∀ reg, ∀ e ∈ appliedDuring w (issi_read_register c w p reg).1, e.1 = p) ∧
    (∀ reg data, w.outcome (w.ntx + 1) = MSG_OK → reg ≠ c.ISSI_COMMANDREGISTER →
      appliedDuring w (issi_write_register c w p reg data).1 = [(p, [reg, data])] ∧
      (issi_write_register c w p reg data).1.chip.banks p reg = data ∧
      ∀ pg o, ¬ (pg = p ∧ o = reg) →
        (issi_write_register c w p reg data).1.chip.banks pg o = w.chip.banks pg o) ∧
    (∀ reg, w.outcome (w.ntx + 1) = MSG_OK → reg ≠ c.ISSI_COMMANDREGISTER →
      appliedDuring w (issi_read_register c w p reg).1 = [(p, [reg])] ∧
      (issi_read_register c w p reg).1.rx 0 = w.chip.banks p reg) := by
  have hpage := pageAfterSelect_eq c w p hp hsel
  refine ⟨?_, ?_, ?_, ?_, ?_⟩
  · intro reg data e he
    rw [write_register_applied, hpage] at he
    split_ifs at he
    · simp at he; simp [he]
    · simp at he
  · intro buffer size e he
    rw [write_data_applied, hpage] at he
    split_ifs at he
    · simp at he; simp [he]
    · simp at he
  · intro reg e he
    rw [read_register_applied, hpage] at he
    split_ifs at he
    · simp at he; simp [he]
    · simp at he
  · intro reg data h1 h2
    refine ⟨?_, ?_, ?_⟩
    · rw [write_register_applied, hpage]; simp [h1, h2]
    · rw [write_register_banks c w p reg data h1 h2, hpage, writeBurst_apply]; simp
    · intro pg o hne
      rw [write_register_banks c w p reg data h1 h2, hpage, writeBurst_apply]
      have : ¬ (pg = p ∧ reg ≤ o ∧ o < reg + [data].length) := by
        simp only [List.length_singleton]; omega
      rw [if_neg this]
  · intro reg h1 h2
    refine ⟨?_, ?_⟩
    · rw [read_register_applied, hpage]; simp [h1, h2]
    · rw [read_register_rx c w p reg h1 h2, hpage]

/-- Witness for C4 (amended): page 0 named while page 3 is selected, every
transaction succeeding. -/
theorem register_ops_target_named_page_witness :
    appliedDuring (testWorld 3 allSucceed)
      (issi_write_register datasheetConsts (testWorld 3 allSucceed) 0 0x24 0xFF).1 =
        [(0, [0x24, 0xFF])] ∧
    (issi_write_register datasheetConsts (testWorld 3 allSucceed) 0 0x24 0xFF).1.chip.banks
      0 0x24 = 0xFF :=
  have h := (register_ops_target_named_page datasheetConsts (testWorld 3 allSucceed) 0
    (by decide) (Or.inl (by decide))).2.2.2.1 0x24 0xFF (by decide) (by decide)
  ⟨h.1, h.2.1⟩

/-! ## C5: effects of `action_function` -/

/-- C5: for every key record, id and opt: on a press with one of the two LED
action ids, `action_function` issues exactly one effect, a post to
`led_mailbox` with timeout `TIME_IMMEDIATE`; on a release, or with any other id,
it issues no effect at all; and none of its effects is a device-driver or bus
operation. -/
theorem action_function_posts (record : keyrecord_t) (id opt : Nat) :
    (record.event.pressed = true ∧ (id = ACTION_LEDS_ALL ∨ id = ACTION_LEDS_GAME) →
      ∃ msg, action_function record id opt =
        [Effect.chMBPost Mailbox.led_mailbox msg TIME_IMMEDIATE]) ∧
    (record.event.pressed = false ∨ (id ≠ ACTION_LEDS_ALL ∧ id ≠ ACTION_LEDS_GAME) →
      action_function record id opt = []) ∧
    (∀ e ∈ action_function record id opt,
      e.isDriverOp = false ∧ e.isBusTransaction = false) := by
  refine ⟨?_, ?_, ?_⟩
  · rintro ⟨hp, h | h⟩
    · exact ⟨led_msg.LED_MSG_GAME_TOGGLE, by simp [action_function, h, hp]⟩
    · exact ⟨led_msg.LED_MSG_ALL_TOGGLE,
        by simp [action_function, h, hp, ACTION_LEDS_GAME, ACTION_LEDS_ALL]⟩
  · rintro (h | ⟨h1, h2⟩)
    · simp [action_function, h]
    · simp [action_function, h1, h2]
  · intro e he
    unfold action_function at he
    split_ifs at he <;> simp at he <;> subst he <;> exact ⟨rfl, rfl⟩

/-! ## C6: bus failures during `early_init_hook` -/

/-- C6 (as stated) fails: the first transaction of `issi_init` fails, yet
`early_init_hook` goes on to issue all 26 transactions; the last two are the
enable-LEDs block write to page 0, which reaches the chip. -/
theorem early_init_hook_writes_after_failure :
    (testWorld 0 firstFails).outcome 0 ≠ MSG_OK ∧
    (early_init_hook datasheetConsts (testWorld 0 firstFails)).ntx = 26 ∧
    (early_init_hook datasheetConsts (testWorld 0 firstFails)).trace.drop 44 =
      blockWrite datasheetConsts 0 (0x00 :: issi_leds_mask) ∧
    (early_init_hook datasheetConsts (testWorld 0 firstFails)).chip.banks 0 0 = 0xFF ∧
    ¬ NoWriteAfterFailedInit datasheetConsts (testWorld 0 firstFails) := by
  refine ⟨by decide, by decide, by decide, by decide, ?_⟩
  intro h
  exact absurd (h 0 (by decide) (by decide)) (by decide)

/-- C6 (amended): `early_init_hook` checks no status.  Whatever the outcomes of
the bus transactions, it issues the same effects: those of `issi_init` and then
the enable-LEDs block write to page 0, 26 bus transactions in all. -/
theorem early_init_hook_ignores_failures (c : IssiConsts) (w : World) :
    (early_init_hook c w).trace = w.trace ++ early_init_issued c w.full_page ∧
    (∀ o : Nat → msg_t,
      (early_init_hook c { w with outcome := o }).trace = (early_init_hook c w).trace) ∧
    (early_init_hook c w).ntx = w.ntx + 26 ∧
    ((early_init_issued c w.full_page).filter Effect.isBusTransaction).length = 26 ∧
    (∃ pre, (early_init_hook c w).trace = pre ++ blockWrite c 0 (0x00 :: issi_leds_mask)) := by
  refine ⟨early_init_hook_trace c w, ?_, ?_, ?_, ?_⟩
  · intro o
    rw [early_init_hook_trace, early_init_hook_trace]
  · simp [early_init_hook]
  · rfl
  · refine ⟨w.trace ++ ([Effect.palSetPadMode Port.GPIOB 0 PadMode.PAL_MODE_ALTERNATIVE_2,
      Effect.palSetPadMode Port.GPIOB 1 PadMode.PAL_MODE_ALTERNATIVE_2,
      Effect.i2cStart 400000,
      Effect.i2cSetHighDrive,
      Effect.i2cSetFLT 4,
      Effect.chThdSleepMilliseconds 10] ++ issi_init_issued c w.full_page), ?_⟩
    rw [early_init_hook_trace]
    simp [early_init_issued]

/-! ## C7: `issi_init` zeroes the eight LED pages -/

/-- C7: if `full_page` is all zero on entry and none of the 24 transactions of
`issi_init` fails (and the command register is not register offset 0), then
whatever the chip held before, every register at offsets `0x00`-`0xB3` of each
of the pages 0-7 holds zero afterwards; the trace ends with the eight per-page
block writes, each a burst of `0xB4+1` bytes: start offset `0x00`, then `0xB4`
zero bytes; and `full_page` is unchanged, still all zero. -/
theorem issi_init_zeroes_led_pages (c : IssiConsts) (w : World)
    (hcmd : c.ISSI_COMMANDREGISTER ≠ 0) (hzero : w.fullPageZero)
    (hok : ∀ k, k < 24 → w.outcome (w.ntx + k) = MSG_OK) :
    (∀ page o, page < 8 → o < 0xB4 → (issi_init c w).chip.banks page o = 0) ∧
    (∃ pre, (issi_init c w).trace = pre ++ (List.range 8).flatMap fun i =>
      blockWrite c i (0x00 :: List.replicate 0xB4 0) ++ [Effect.chThdSleepMilliseconds 1]) ∧
    (0x00 :: List.replicate 0xB4 0).length = 0xB4 + 1 ∧
    (issi_init c w).full_page = w.full_page ∧
    (issi_init c w).fullPageZero := by
  refine ⟨?_, issi_init_page_suffix c w hzero,
    by rw [List.length_cons, List.length_replicate], issi_init_full_page c w, ?_⟩
  · intro page o hpage ho
    unfold issi_init
    apply init_loop_zero c hcmd (List.range 8) (fun p hp => List.mem_range.mp hp)
    · intro i hi
      simpa using hzero i hi
    · intro k hk
      have := hok (8 + k) (by simp at hk; omega)
      simp only [sleep_outcome, sleep_ntx, write_register_outcome, write_register_ntx,
        write_data_outcome, write_data_ntx, setpad_outcome, setpad_ntx, padmode_outcome,
        padmode_ntx]
      rw [← this]
      congr 1
      omega
    · exact ho
    · exact Or.inl (List.mem_range.mpr hpage)
  · intro i hi
    rw [issi_init_full_page]
    exact hzero i hi

/-- Witness for C7: a chip whose registers all hold `0xAA` before `issi_init`. -/
theorem issi_init_zeroes_led_pages_witness :
    dirtyChipWorld.chip.banks 7 0xB3 = 0xAA ∧
    (issi_init datasheetConsts dirtyChipWorld).chip.banks 7 0xB3 = 0 ∧
    (issi_init datasheetConsts dirtyChipWorld).chip.banks 0 0x00 = 0 :=
  have h := (issi_init_zeroes_led_pages datasheetConsts dirtyChipWorld (by decide)
    (fun _ _ => rfl) (fun _ _ => rfl)).1
  ⟨rfl, h 7 0xB3 (by decide) (by decide), h 0 0x00 (by decide) (by decide)⟩

/-! ## C8: failure of the second transaction of `issi_write_register` -/

/-- C8: when the page select of `issi_write_register` succeeds and the
(reg, value) transaction fails, the call returns that failure status; it has
issued exactly two bus transactions, the 2-byte page select (command register,
page) and then the 2-byte write (reg, value), each once; and on the simulated
chip no register has been written. -/
theorem issi_write_register_second_fails (c : IssiConsts) (w : World) (page reg value : Nat)
    (hsel : w.outcome w.ntx = MSG_OK) (hdata : w.outcome (w.ntx + 1) ≠ MSG_OK) :
    (issi_write_register c w page reg value).2 = w.outcome (w.ntx + 1) ∧
    (issi_write_register c w page reg value).2 ≠ MSG_OK ∧
    (issi_write_register c w page reg value).1.trace =
      w.trace ++ [selectPage c page, dataTransaction c [reg, value]] ∧
    (issi_write_register c w page reg value).1.ntx = w.ntx + 2 ∧
    (validPage c page → (issi_write_register c w page reg value).1.chip.selected = page) ∧
    (issi_write_register c w page reg value).1.chip.banks = w.chip.banks ∧
    appliedDuring w (issi_write_register c w page reg value).1 = [] := by
  refine ⟨by simp, by simpa using hdata, by simp [registerWrite], by simp, ?_,
    write_register_banks_of_fail c w page reg value hdata, ?_⟩
  · intro hv
    unfold issi_write_register
    simp only [i2c_chip, select_ntx, select_outcome, hdata, if_false, select_selected]
    exact pageAfterSelect_eq c w page hv (Or.inl hsel)
  · rw [write_register_applied]
    simp [hdata]

/-- Witness for C8 on the concrete state with only the second transaction
failing. -/
theorem issi_write_register_second_fails_witness :
    (issi_write_register datasheetConsts (testWorld 3 secondFails) 0 0x24 0xFF).2 =
      MSG_TIMEOUT ∧
    (issi_write_register datasheetConsts (testWorld 3 secondFails) 0 0x24 0xFF).1.trace =
      [selectPage datasheetConsts 0, dataTransaction datasheetConsts [0x24, 0xFF]] :=
  have h := issi_write_register_second_fails datasheetConsts (testWorld 3 secondFails) 0 0x24 0xFF
    (by decide) (by decide)
  ⟨h.1, h.2.2.1⟩

/-! ## C9: `issi_leds_mask` and the LED map -/

/-- C9: for every matrix, row 1..9 and column 1..8, the bit of `issi_leds_mask`
at byte `2*(row-1) + matrix index`, bit `column-1`, is set if and only if the
matrix is A and (row, column) is not (9, 8); the positions set are exactly the
entries of the WF LED MAP comment, which has 71 distinct entries; and no bit of
a matrix-B byte is set. -/
theorem issi_leds_mask_encodes_led_map (m : Matrix) (row col : Nat)
    (hr1 : 1 ≤ row) (hr9 : row ≤ 9) (hc1 : 1 ≤ col) (hc8 : col ≤ 8) :
    (maskBit m row col = true ↔ (m = Matrix.A ∧ ¬ (row = 9 ∧ col = 8))) ∧
    (maskBit Matrix.A row col = true ↔ 10 * row + col ∈ wf_led_map) ∧
    maskBit Matrix.B row col = false ∧
    issi_leds_mask.getD (ledByte Matrix.B row) 0 = 0 ∧
    wf_led_map.length = 71 ∧ wf_led_map.Nodup ∧
    issi_leds_mask.length = 0x12 := by
  have key := mask_bits_fin ⟨row, by omega⟩ ⟨col, by omega⟩ hr1 hc1
  simp only at key
  have hB : ∀ r : Fin 10, 1 ≤ r.val → issi_leds_mask.getD (ledByte Matrix.B r.val) 0 = 0 := by
    decide
  refine ⟨?_, key.2.2, key.2.1, hB ⟨row, by omega⟩ hr1, by decide, by decide, by decide⟩
  cases m with
  | A => simpa using key.1
  | B => simp [key.2.1]

/-- Witness for C9: row 9 of matrix A has column 7 populated and column 8 not. -/
theorem issi_leds_mask_encodes_led_map_witness :
    maskBit Matrix.A 9 7 = true ∧ maskBit Matrix.A 9 8 = false :=
  ⟨((issi_leds_mask_encodes_led_map Matrix.A 9 7 (by decide) (by decide) (by decide)
      (by decide)).1).2 ⟨rfl, by decide⟩,
   by
    have h := (issi_leds_mask_encodes_led_map Matrix.A 9 8 (by decide) (by decide) (by decide)
      (by decide)).1
    cases hb : maskBit Matrix.A 9 8 with
    | false => rfl
    | true => exact absurd (h.1 hb).2 (by decide)⟩

/-! ## C10: message posted for each action id -/

/-- C10 fails on the code: on a press, id `ACTION_LEDS_ALL` posts
`LED_MSG_GAME_TOGGLE` and id `ACTION_LEDS_GAME` posts `LED_MSG_ALL_TOGGLE`; the
two messages are exchanged with respect to the action ids. -/
theorem action_function_messages_swapped :
    action_function pressedRecord ACTION_LEDS_ALL 0 =
      [Effect.chMBPost Mailbox.led_mailbox led_msg.LED_MSG_GAME_TOGGLE TIME_IMMEDIATE] ∧
    action_function pressedRecord ACTION_LEDS_GAME 0 =
      [Effect.chMBPost Mailbox.led_mailbox led_msg.LED_MSG_ALL_TOGGLE TIME_IMMEDIATE] ∧
    action_function pressedRecord ACTION_LEDS_ALL 0 ≠
      [Effect.chMBPost Mailbox.led_mailbox led_msg.LED_MSG_ALL_TOGGLE TIME_IMMEDIATE] ∧
    action_function pressedRecord ACTION_LEDS_GAME 0 ≠
      [Effect.chMBPost Mailbox.led_mailbox led_msg.LED_MSG_GAME_TOGGLE TIME_IMMEDIATE] := by
  decide

end WhiteFox
